import Mathlib

/-!
Verification development for the conversion error-reporting core
(`src/engine/src/conversion/error_reporter.rs`).

The file embeds the data model and the four operations of that file —
`report_any_error`, `convert_apis`, `api_or_error`, `convert_item_apis`,
`ignored_item` — as Lean functions.  The Rust functions append to a
caller-supplied output vector and print diagnostic lines with `eprintln!`;
here each operation returns the final output list together with the list of
diagnostic lines it emitted, in emission order.  Supporting types
(`QualifiedName`, `Namespace`, `ApiName`, `ConvertError`, `ErrorContext`,
the `Api` record catalog and the `AnalysisPhase` trait) live outside the
given source file and are modelled from the spec where noted.
-/

set_option autoImplicit false

namespace ErrorReporter

/-- Modelled from the spec: a hierarchical scope path attached to every record
(the source type `crate::types::Namespace` is outside the given file). -/
structure Namespace where
  segments : List String
deriving DecidableEq

/-- Modelled from the spec: an immutable, fully-qualified identifier —
namespace path plus local identifier (the source type
`crate::types::QualifiedName` is outside the given file). -/
structure QualifiedName where
  ns : Namespace
  ident : String
deriving DecidableEq

def QualifiedName.get_namespace (n : QualifiedName) : Namespace := n.ns

def QualifiedName.get_final_ident (n : QualifiedName) : String := n.ident

def QualifiedName.to_string (n : QualifiedName) : String :=
  String.intercalate "::" (n.ns.segments ++ [n.ident])

/-- Modelled from the spec: the identity attached to a record; built by
`ApiName::new(ns, id)` from a namespace and a local identifier. -/
structure ApiName where
  name : QualifiedName
deriving DecidableEq

def ApiName.new (ns : Namespace) (id : String) : ApiName := ⟨⟨ns, id⟩⟩

/-- Modelled from the spec: a categorized, opaque error with a human-readable
rendering and duplicable value semantics (the source type `ConvertError` is
outside the given file). -/
structure ConvertError where
  msg : String
deriving DecidableEq

def ConvertError.to_string (e : ConvertError) : String := e.msg

/-- Modelled from the spec: optional attribution of an error to a sub-part of
a record (the whole item, or a method of it); it carries the identifier used
to name a synthesized placeholder (`get_id`) and has a human-readable
rendering (`to_string`). -/
inductive ErrorContext where
  | Item : String → ErrorContext
  | Method : String → String → ErrorContext
deriving DecidableEq

def ErrorContext.get_id : ErrorContext → String
  | .Item id => id
  | .Method _ method => method

def ErrorContext.to_string : ErrorContext → String
  | .Item id => id
  | .Method self_ty method => self_ty ++ "::" ++ method

/-- Modelled from the spec: an error paired with its optional context
(the source tuple struct `ConvertErrorWithContext(err, ctx)`). -/
structure ConvertErrorWithContext where
  err : ConvertError
  ctx : Option ErrorContext
deriving DecidableEq

/-- Modelled from the spec: opaque payload of a concrete-type record
(its Rust-side definition). -/
structure RsDefinition where
  data : String
deriving DecidableEq

/-- Modelled from the spec: opaque payload of a constant record. -/
structure ConstItem where
  data : String
deriving DecidableEq

/-- Modelled from the spec: opaque payload of a C-level type alias record. -/
structure TypeName where
  data : String
deriving DecidableEq

/-- Modelled from the spec: opaque path payload of a foreign-runtime (Rust)
type or function reference. -/
structure RustPath where
  data : String
deriving DecidableEq

/-- Modelled from the spec: opaque signature payload of a foreign-runtime
(Rust) function reference. -/
structure FnSig where
  data : String
deriving DecidableEq

/-- Modelled from the spec: the identity of a generated subclass; wraps an
`ApiName`. -/
structure SubclassName where
  name : ApiName
deriving DecidableEq

/-- Modelled from the spec: opaque payload of a subclass method record. -/
structure RustSubclassFnDetails where
  data : String
deriving DecidableEq

/-- Modelled from the spec: opaque payload of a subclass constructor record
(its C++ implementation). -/
structure CppFunction where
  data : String
deriving DecidableEq

/-- Modelled from the spec: opaque payload of a structure/class record
(a `syn::ItemStruct`). -/
structure ItemStruct where
  data : String
deriving DecidableEq

/-- Modelled from the spec: opaque payload of an enumeration record
(a `syn::ItemEnum`). -/
structure ItemEnum where
  data : String
deriving DecidableEq

/-- Modelled from the spec: opaque payload of a type-alias (typedef) record. -/
structure TypedefKind where
  data : String
deriving DecidableEq

/-- Modelled from the spec: opaque payload of a function record awaiting
conversion. -/
structure FuncToConvert where
  data : String
deriving DecidableEq

/-- The phase parameter: the three analysis-bundle types attached to the
analysis-bearing transformable kinds (function, struct, typedef), per the
source trait `AnalysisPhase`. -/
structure AnalysisPhase where
  FunAnalysis : Type
  StructAnalysis : Type
  TypedefAnalysis : Type

/-- The closed set of API-record variants, phase-parameterized.  Variant and
field names follow the source match arms in `convert_apis`; `fun_` stands for
the source field `fun` (a Lean keyword). -/
inductive Api (P : AnalysisPhase) : Type where
  | ConcreteType (name : ApiName) (rs_definition : RsDefinition) (cpp_definition : String)
  | ForwardDeclaration (name : ApiName)
  | StringConstructor (name : ApiName)
  | Const (name : ApiName) (const_item : ConstItem)
  | CType (name : ApiName) (typename : TypeName)
  | RustType (name : ApiName) (path : RustPath)
  | RustFn (name : ApiName) (sig : FnSig) (path : RustPath)
  | RustSubclassFn (name : ApiName) (subclass : SubclassName) (details : RustSubclassFnDetails)
  | RustSubclassConstructor (name : ApiName) (subclass : SubclassName)
      (cpp_impl : CppFunction) (is_trivial : Bool)
  | Subclass (name : SubclassName) (superclass : QualifiedName)
  | IgnoredItem (name : ApiName) (err : ConvertError) (ctx : ErrorContext)
  | Enum (name : ApiName) (item : ItemEnum)
  | Typedef (name : ApiName) (item : TypedefKind) (old_tyname : Option QualifiedName)
      (analysis : P.TypedefAnalysis)
  | Function (name : ApiName) (fun_ : FuncToConvert) (analysis : P.FunAnalysis)
      (name_for_gc : Option QualifiedName)
  | Struct (name : ApiName) (item : ItemStruct) (analysis : P.StructAnalysis)

/-- Modelled from the spec: `Api::name()`, the qualified name identifying a
record, defined for every variant. -/
def Api.name {P : AnalysisPhase} : Api P → QualifiedName
  | .ConcreteType name _ _ => name.name
  | .ForwardDeclaration name => name.name
  | .StringConstructor name => name.name
  | .Const name _ => name.name
  | .CType name _ => name.name
  | .RustType name _ => name.name
  | .RustFn name _ _ => name.name
  | .RustSubclassFn name _ _ => name.name
  | .RustSubclassConstructor name _ _ _ => name.name
  | .Subclass name _ => name.name.name
  | .IgnoredItem name _ _ => name.name
  | .Enum name _ => name.name
  | .Typedef name _ _ _ => name.name
  | .Function name _ _ _ => name.name
  | .Struct name _ _ => name.name

/-- Embedding of `ignored_item` (source lines 226–232): synthesize a
placeholder record whose identity combines the given namespace with the
context's identifier, embedding the error and context. -/
def ignored_item {P : AnalysisPhase} (ns : Namespace) (ctx : ErrorContext)
    (err : ConvertError) : Api P :=
  Api.IgnoredItem (ApiName.new ns ctx.get_id) err ctx

/-- Embedding of `api_or_error` (source lines 178–197).  The Rust function
returns an iterator of records and prints via `eprintln!`; here it returns
the (eagerly materialized) record list paired with the emitted log lines. -/
def api_or_error {T : AnalysisPhase} (name : QualifiedName)
    (r : Except ConvertErrorWithContext (List (Api T))) :
    List (Api T) × List String :=
  match r with
  | .ok opt => (opt, [])
  | .error ⟨err, none⟩ =>
      ([], ["Ignored " ++ name.to_string ++ ": " ++ err.to_string])
  | .error ⟨err, some ctx⟩ =>
      ([ignored_item name.get_namespace ctx err],
       ["Ignored " ++ name.to_string ++ ": " ++ err.to_string])

/-- Type of the function-conversion rule passed to `convert_apis`
(source lines 62–67). -/
abbrev FuncRule (A B : AnalysisPhase) : Type :=
  ApiName → FuncToConvert → A.FunAnalysis → Option QualifiedName →
    Except ConvertErrorWithContext (List (Api B))

/-- Type of the struct-conversion rule passed to `convert_apis`
(source lines 68–72). -/
abbrev StructRule (A B : AnalysisPhase) : Type :=
  ApiName → ItemStruct → A.StructAnalysis →
    Except ConvertErrorWithContext (List (Api B))

/-- Type of the enum-conversion rule passed to `convert_apis`
(source lines 73–76): it receives only the identity and the item. -/
abbrev EnumRule (B : AnalysisPhase) : Type :=
  ApiName → ItemEnum → Except ConvertErrorWithContext (List (Api B))

/-- Type of the typedef-conversion rule passed to `convert_apis`
(source lines 77–82). -/
abbrev TypedefRule (A B : AnalysisPhase) : Type :=
  ApiName → TypedefKind → Option QualifiedName → A.TypedefAnalysis →
    Except ConvertErrorWithContext (List (Api B))

/-- Embedding of the per-record `match` inside `convert_apis` (source lines
89–171): pass-through kinds are copied field-for-field into the phase-B
variant; the four transformable kinds invoke their matching rule. -/
def convert_result {A B : AnalysisPhase}
    (func_conversion : FuncRule A B) (struct_conversion : StructRule A B)
    (enum_conversion : EnumRule B) (typedef_conversion : TypedefRule A B) :
    Api A → Except ConvertErrorWithContext (List (Api B))
  | .ConcreteType name rs_definition cpp_definition =>
      .ok [Api.ConcreteType name rs_definition cpp_definition]
  | .ForwardDeclaration name => .ok [Api.ForwardDeclaration name]
  | .StringConstructor name => .ok [Api.StringConstructor name]
  | .Const name const_item => .ok [Api.Const name const_item]
  | .CType name typename => .ok [Api.CType name typename]
  | .RustType name path => .ok [Api.RustType name path]
  | .RustFn name sig path => .ok [Api.RustFn name sig path]
  | .RustSubclassFn name subclass details =>
      .ok [Api.RustSubclassFn name subclass details]
  | .RustSubclassConstructor name subclass cpp_impl is_trivial =>
      .ok [Api.RustSubclassConstructor name subclass cpp_impl is_trivial]
  | .Subclass name superclass => .ok [Api.Subclass name superclass]
  | .IgnoredItem name err ctx => .ok [Api.IgnoredItem name err ctx]
  | .Enum name item => enum_conversion name item
  | .Typedef name item old_tyname analysis =>
      typedef_conversion name item old_tyname analysis
  | .Function name fun_ analysis name_for_gc =>
      func_conversion name fun_ analysis name_for_gc
  | .Struct name item analysis => struct_conversion name item analysis

/-- One iteration of the `convert_apis` loop: clone the record's name, run the
per-record match, and route the outcome through `api_or_error`. -/
def convert_one {A B : AnalysisPhase}
    (func_conversion : FuncRule A B) (struct_conversion : StructRule A B)
    (enum_conversion : EnumRule B) (typedef_conversion : TypedefRule A B)
    (api : Api A) : List (Api B) × List String :=
  api_or_error api.name
    (convert_result func_conversion struct_conversion enum_conversion
      typedef_conversion api)

/-- Embedding of `Vec::extend` over a flattening map: each step yields the
records and log lines for one input item, appended in input order.  This is
the shared loop of `convert_apis` and `convert_item_apis`. -/
def extendFlatten {α β σ : Type} (step : α → List β × List σ) :
    List α → List β → List σ → List β × List σ
  | [], out, logs => (out, logs)
  | a :: rest, out, logs =>
      extendFlatten step rest (out ++ (step a).fst) (logs ++ (step a).snd)

/-- Embedding of `convert_apis` (source lines 52–176): extend `out_apis` with
the flattened per-item results, collecting diagnostic lines in order. -/
def convert_apis {A B : AnalysisPhase} (in_apis : List (Api A))
    (out_apis : List (Api B))
    (func_conversion : FuncRule A B) (struct_conversion : StructRule A B)
    (enum_conversion : EnumRule B) (typedef_conversion : TypedefRule A B) :
    List (Api B) × List String :=
  extendFlatten
    (convert_one func_conversion struct_conversion enum_conversion
      typedef_conversion)
    in_apis out_apis []

/-- One iteration of the `convert_item_apis` loop (source lines 215–221):
apply the uniform rule to the whole record, wrap a plain error with context
`Item(name.get_final_ident())`, and route through `api_or_error`. -/
def convert_item_step {A B : AnalysisPhase}
    (fun_ : Api A → Except ConvertError (List (Api B))) (api : Api A) :
    List (Api B) × List String :=
  let tn := api.name
  api_or_error tn
    (match fun_ api with
     | .ok l => .ok l
     | .error e => .error ⟨e, some (ErrorContext.Item tn.get_final_ident)⟩)

/-- Embedding of `convert_item_apis` (source lines 203–224). -/
def convert_item_apis {A B : AnalysisPhase} (in_apis : List (Api A))
    (out_apis : List (Api B))
    (fun_ : Api A → Except ConvertError (List (Api B))) :
    List (Api B) × List String :=
  extendFlatten (convert_item_step fun_) in_apis out_apis []

/-- Embedding of `report_any_error` (source lines 27–47).  The Rust function
takes a closure and pattern-matches its result; here it takes the closure's
outcome directly and returns the optional value, the final state of the
caller-supplied `apis` vector, and the emitted log lines. -/
def report_any_error {P : AnalysisPhase} {T : Type} (ns : Namespace)
    (apis : List (Api P)) (fun_ : Except ConvertErrorWithContext T) :
    Option T × List (Api P) × List String :=
  match fun_ with
  | .ok result => (some result, apis, [])
  | .error ⟨err, none⟩ => (none, apis, ["Ignored item: " ++ err.to_string])
  | .error ⟨err, some ctx⟩ =>
      (none, apis ++ [ignored_item ns ctx err],
       ["Ignored item " ++ ctx.to_string ++ ": " ++ err.to_string])

/-- Characterization of the shared loop: extending `out` (and `logs`) with a
flattening map appends, in input order, the concatenation of every step's
records (and log lines). -/
theorem extendFlatten_eq {α β σ : Type} (step : α → List β × List σ)
    (l : List α) (out : List β) (logs : List σ) :
    extendFlatten step l out logs =
      (out ++ (l.map fun x => (step x).fst).flatten,
       logs ++ (l.map fun x => (step x).snd).flatten) := by
  induction l generalizing out logs with
  | nil => simp [extendFlatten]
  | cons a rest ih => simp [extendFlatten, ih]

/-- Decidable check that the character list `sub` is a leading segment of the
second list. -/
def leadMatch : List Char → List Char → Bool
  | [], _ => true
  | _ :: _, [] => false
  | a :: as, b :: bs => a == b && leadMatch as bs

/-- Decidable check that the character list `sub` occurs contiguously
somewhere in the second list. -/
def occursIn (sub : List Char) : List Char → Bool
  | [] => leadMatch sub []
  | b :: bs => leadMatch sub (b :: bs) || occursIn sub bs

/-- Decidable check that the string `sub` occurs contiguously in `s`. -/
def strIncludes (s sub : String) : Bool :=
  occursIn sub.data s.data

/-- A concrete phase whose three analysis-bundle types are all `Unit`. -/
def phU : AnalysisPhase := ⟨Unit, Unit, Unit⟩

/-- A concrete phase whose three analysis-bundle types are all uninhabited. -/
def phEmpty : AnalysisPhase := ⟨Empty, Empty, Empty⟩

/-- A concrete namespace used by witnesses. -/
def nsOuter : Namespace := ⟨["outer"]⟩

/-- A concrete qualified name used by witnesses. -/
def qnFoo : QualifiedName := ⟨nsOuter, "Foo"⟩

/-- A concrete record identity used by witnesses. -/
def anFoo : ApiName := ⟨qnFoo⟩

/-- A concrete qualified name used by witnesses. -/
def qnBar : QualifiedName := ⟨nsOuter, "Bar"⟩

/-- A concrete record identity used by witnesses. -/
def anBar : ApiName := ⟨qnBar⟩

/-- A concrete qualified name used by witnesses. -/
def qnBaz : QualifiedName := ⟨nsOuter, "Baz"⟩

/-- A concrete record identity used by witnesses. -/
def anBaz : ApiName := ⟨qnBaz⟩

/-- A concrete error used by witnesses. -/
def errBoom : ConvertError := ⟨"boom"⟩

/-- A concrete struct payload used by witnesses. -/
def itemS : ItemStruct := ⟨"S"⟩

/-- A concrete enum payload used by witnesses. -/
def itemE : ItemEnum := ⟨"E"⟩

/-- A function rule that always succeeds with no output records. -/
def fOk : FuncRule phU phU := fun _ _ _ _ => Except.ok []

/-- An enum rule that always succeeds with no output records. -/
def eOk : EnumRule phU := fun _ _ => Except.ok []

/-- A typedef rule that always succeeds with no output records. -/
def tOk : TypedefRule phU phU := fun _ _ _ _ => Except.ok []

/-- A struct rule that always fails, attributing the error to `Bar`. -/
def sFail : StructRule phU phU :=
  fun _ _ _ => Except.error ⟨errBoom, some (ErrorContext.Item "Bar")⟩

/-- A struct rule that succeeds with two records, exercising expansion. -/
def sTwo : StructRule phU phU :=
  fun name _ _ => Except.ok [Api.ForwardDeclaration name, Api.StringConstructor name]

/-- A function rule over the uninhabited phase. -/
def fEmpty : FuncRule phEmpty phU := fun _ _ x _ => x.elim

/-- A struct rule over the uninhabited phase. -/
def sEmpty : StructRule phEmpty phU := fun _ _ x => x.elim

/-- A typedef rule over the uninhabited phase. -/
def tEmpty : TypedefRule phEmpty phU := fun _ _ _ x => x.elim

/-- An enum rule usable at any input phase: it ignores its arguments. -/
def eConst : EnumRule phU := fun _ _ => Except.ok []

/-- A concrete placeholder record used by the counterexamples. -/
def pIgn : Api phU := Api.IgnoredItem anBar errBoom (ErrorContext.Item "Bar")

/-- A uniform rule that fails on every record with the error `boom`. -/
def gFail : Api phU → Except ConvertError (List (Api phU)) :=
  fun _ => Except.error errBoom

/-- C1: a rule failure on one record never aborts the batch — every record
before and after the failing one is still dispatched and its result appended
in place — and the error never escapes `convert_apis`: it is downgraded to
one log line plus the Materializer's output for that position, which holds at
most one (placeholder) record. -/
theorem convert_apis_fault_isolation {A B : AnalysisPhase}
    (f : FuncRule A B) (s : StructRule A B) (e : EnumRule B)
    (t : TypedefRule A B) (xs ys : List (Api A)) (a : Api A)
    (out : List (Api B)) (err : ConvertError) (octx : Option ErrorContext)
    (h : convert_result f s e t a = Except.error ⟨err, octx⟩) :
    (convert_apis (xs ++ a :: ys) out f s e t =
      (out ++ (xs.map fun x => (convert_one f s e t x).fst).flatten
           ++ (api_or_error a.name (Except.error ⟨err, octx⟩)).fst
           ++ (ys.map fun x => (convert_one f s e t x).fst).flatten,
       (xs.map fun x => (convert_one f s e t x).snd).flatten
         ++ ["Ignored " ++ a.name.to_string ++ ": " ++ err.to_string]
         ++ (ys.map fun x => (convert_one f s e t x).snd).flatten)
    ∧ (api_or_error (T := B) a.name (Except.error ⟨err, octx⟩)).fst.length ≤ 1)
    ∧ (∀ (g : Api A → Except ConvertError (List (Api B))) (a2 : Api A)
        (e2 : ConvertError), g a2 = Except.error e2 →
        (convert_item_apis (xs ++ a2 :: ys) out g).fst =
          out ++ (xs.map fun x => (convert_item_step g x).fst).flatten
              ++ [ignored_item a2.name.get_namespace
                    (ErrorContext.Item a2.name.get_final_ident) e2]
              ++ (ys.map fun x => (convert_item_step g x).fst).flatten) := by
  refine ⟨⟨?_, ?_⟩, ?_⟩
  · rw [convert_apis, extendFlatten_eq]
    cases octx <;> simp [convert_one, h, api_or_error, List.append_assoc]
  · cases octx <;> simp [api_or_error]
  · intro g a2 e2 hg
    rw [convert_item_apis, extendFlatten_eq]
    simp [convert_item_step, hg, api_or_error, List.append_assoc]

/-- C1 witness: in a three-record batch whose middle struct record fails with
context `Bar`, both neighbors are still converted in place, the failure
yields one placeholder plus one log line, and nothing escapes. -/
theorem convert_apis_fault_isolation_witness :
    convert_result fOk sFail eOk tOk (Api.Struct anBar itemS ()) =
        Except.error ⟨errBoom, some (ErrorContext.Item "Bar")⟩
    ∧ gFail (Api.ForwardDeclaration anBar) = Except.error errBoom
    ∧ (convert_apis
          [Api.ForwardDeclaration anFoo, Api.Struct anBar itemS (),
           Api.ForwardDeclaration anBaz] [] fOk sFail eOk tOk =
        ([Api.ForwardDeclaration anFoo,
          Api.IgnoredItem (ApiName.new nsOuter "Bar") errBoom
            (ErrorContext.Item "Bar"),
          Api.ForwardDeclaration anBaz],
         ["Ignored outer::Bar: boom"])
      ∧ (api_or_error (T := phU) qnBar
           (Except.error ⟨errBoom, some (ErrorContext.Item "Bar")⟩)).fst.length ≤ 1)
    ∧ (convert_item_apis
          [Api.ForwardDeclaration anFoo, Api.ForwardDeclaration anBar,
           Api.ForwardDeclaration anBaz] [] gFail).fst =
        [Api.IgnoredItem (ApiName.new nsOuter "Foo") errBoom
           (ErrorContext.Item "Foo"),
         Api.IgnoredItem (ApiName.new nsOuter "Bar") errBoom
           (ErrorContext.Item "Bar"),
         Api.IgnoredItem (ApiName.new nsOuter "Baz") errBoom
           (ErrorContext.Item "Baz")] :=
  ⟨rfl, rfl,
   (convert_apis_fault_isolation fOk sFail eOk tOk
     [Api.ForwardDeclaration anFoo] [Api.ForwardDeclaration anBaz]
     (Api.Struct anBar itemS ()) [] errBoom
     (some (ErrorContext.Item "Bar")) rfl).1,
   (convert_apis_fault_isolation fOk sFail eOk tOk
     [Api.ForwardDeclaration anFoo] [Api.ForwardDeclaration anBaz]
     (Api.Struct anBar itemS ()) [] errBoom
     (some (ErrorContext.Item "Bar")) rfl).2
     gFail (Api.ForwardDeclaration anBar) errBoom rfl⟩

/-- C3: the output of `convert_apis` is the prior contents of the output
collection followed by the in-input-order concatenation of every record's
per-item result; when a rule succeeds with a sequence `ks`, those records
appear contiguously at that input item's position, between the neighbors'
outputs. -/
theorem convert_apis_order_preservation {A B : AnalysisPhase}
    (f : FuncRule A B) (s : StructRule A B) (e : EnumRule B)
    (t : TypedefRule A B) (l xs ys : List (Api A)) (a : Api A)
    (ks : List (Api B)) (out : List (Api B))
    (h : convert_result f s e t a = Except.ok ks) :
    (convert_apis l out f s e t).fst =
      out ++ (l.map fun x => (convert_one f s e t x).fst).flatten
    ∧ (convert_apis (xs ++ a :: ys) out f s e t).fst =
      out ++ (xs.map fun x => (convert_one f s e t x).fst).flatten
          ++ ks
          ++ (ys.map fun x => (convert_one f s e t x).fst).flatten := by
  constructor
  · rw [convert_apis, extendFlatten_eq]
  · rw [convert_apis, extendFlatten_eq]
    simp [convert_one, h, api_or_error, List.append_assoc]

/-- C3 witness: a struct rule succeeding with two records places both
contiguously at the struct's position between its neighbors' outputs. -/
theorem convert_apis_order_preservation_witness :
    convert_result fOk sTwo eOk tOk (Api.Struct anBar itemS ()) =
        Except.ok [Api.ForwardDeclaration anBar, Api.StringConstructor anBar]
    ∧ ((convert_apis [Api.ForwardDeclaration anFoo] [] fOk sTwo eOk tOk).fst =
        [Api.ForwardDeclaration anFoo]
      ∧ (convert_apis
            [Api.ForwardDeclaration anFoo, Api.Struct anBar itemS (),
             Api.ForwardDeclaration anBaz] [] fOk sTwo eOk tOk).fst =
          [Api.ForwardDeclaration anFoo, Api.ForwardDeclaration anBar,
           Api.StringConstructor anBar, Api.ForwardDeclaration anBaz]) :=
  ⟨rfl,
   convert_apis_order_preservation fOk sTwo eOk tOk
     [Api.ForwardDeclaration anFoo] [Api.ForwardDeclaration anFoo]
     [Api.ForwardDeclaration anBaz] (Api.Struct anBar itemS ())
     [Api.ForwardDeclaration anBar, Api.StringConstructor anBar] [] rfl⟩

/-- C2: for every failure routed through the Materializer `api_or_error`,
exactly one log line is emitted; with a context, exactly one placeholder is
produced, named from the original name's namespace combined with the
context's identifier and embedding the original error unmodified; without a
context, zero records are produced. -/
theorem api_or_error_failure_accounting {T : AnalysisPhase}
    (name : QualifiedName) (err : ConvertError) :
    (∀ octx : Option ErrorContext,
      (api_or_error (T := T) name (Except.error ⟨err, octx⟩)).snd =
        ["Ignored " ++ name.to_string ++ ": " ++ err.to_string])
    ∧ (∀ ctx : ErrorContext,
      (api_or_error (T := T) name (Except.error ⟨err, some ctx⟩)).fst =
        [Api.IgnoredItem (ApiName.new name.get_namespace ctx.get_id) err ctx])
    ∧ (api_or_error (T := T) name (Except.error ⟨err, none⟩)).fst = [] := by
  refine ⟨?_, fun ctx => rfl, rfl⟩
  intro octx
  cases octx <;> rfl

/-- C4: each of the eleven pass-through kinds is copied field-for-field into
the identically-named variant of the output phase, with no log line; the
equations hold for every choice of the four conversion rules, so no rule is
invoked for these kinds. -/
theorem convert_apis_identity_pass_through {A B : AnalysisPhase}
    (f : FuncRule A B) (s : StructRule A B) (e : EnumRule B)
    (t : TypedefRule A B) :
    (∀ name rs_definition cpp_definition,
      convert_one f s e t (Api.ConcreteType name rs_definition cpp_definition) =
        ([Api.ConcreteType name rs_definition cpp_definition], []))
    ∧ (∀ name, convert_one f s e t (Api.ForwardDeclaration name) =
        ([Api.ForwardDeclaration name], []))
    ∧ (∀ name, convert_one f s e t (Api.StringConstructor name) =
        ([Api.StringConstructor name], []))
    ∧ (∀ name const_item, convert_one f s e t (Api.Const name const_item) =
        ([Api.Const name const_item], []))
    ∧ (∀ name typename, convert_one f s e t (Api.CType name typename) =
        ([Api.CType name typename], []))
    ∧ (∀ name path, convert_one f s e t (Api.RustType name path) =
        ([Api.RustType name path], []))
    ∧ (∀ name sig path, convert_one f s e t (Api.RustFn name sig path) =
        ([Api.RustFn name sig path], []))
    ∧ (∀ name subclass details,
      convert_one f s e t (Api.RustSubclassFn name subclass details) =
        ([Api.RustSubclassFn name subclass details], []))
    ∧ (∀ name subclass cpp_impl is_trivial,
      convert_one f s e t
          (Api.RustSubclassConstructor name subclass cpp_impl is_trivial) =
        ([Api.RustSubclassConstructor name subclass cpp_impl is_trivial], []))
    ∧ (∀ name superclass, convert_one f s e t (Api.Subclass name superclass) =
        ([Api.Subclass name superclass], []))
    ∧ (∀ name err ctx, convert_one f s e t (Api.IgnoredItem name err ctx) =
        ([Api.IgnoredItem name err ctx], [])) := by
  refine ⟨?_, ?_, ?_, ?_, ?_, ?_, ?_, ?_, ?_, ?_, ?_⟩ <;> intros <;> rfl

/-- C7 counterexample: the enum conversion rule cannot receive a phase-A
analysis bundle.  Over the phase whose three analysis-bundle types are all
uninhabited, the enum rule is still dispatched and produces a result, so no
analysis-bundle value can have been passed to it — the phase-A enum record
carries none. -/
theorem conversion_rule_enum_no_analysis :
    convert_result fEmpty sEmpty eConst tEmpty (Api.Enum anFoo itemE) =
      Except.ok []
    ∧ IsEmpty phEmpty.FunAnalysis
    ∧ IsEmpty phEmpty.StructAnalysis
    ∧ IsEmpty phEmpty.TypedefAnalysis :=
  ⟨rfl, ⟨fun x => x.elim⟩, ⟨fun x => x.elim⟩, ⟨fun x => x.elim⟩⟩

/-- C7 (amended): the dispatcher passes each transformable record's identity
and kind-specific payload to its matching rule; the function and struct rules
additionally receive the phase-A analysis bundle, the typedef rule receives
the optional related identity and the analysis bundle, the function rule
additionally receives the optional related identity, and the enum rule
receives only the identity and payload (the enum record carries no analysis
bundle). -/
theorem conversion_rule_signatures {A B : AnalysisPhase}
    (f : FuncRule A B) (s : StructRule A B) (e : EnumRule B)
    (t : TypedefRule A B) :
    (∀ name fun_ analysis name_for_gc,
      convert_result f s e t (Api.Function name fun_ analysis name_for_gc) =
        f name fun_ analysis name_for_gc)
    ∧ (∀ name item analysis,
      convert_result f s e t (Api.Struct name item analysis) =
        s name item analysis)
    ∧ (∀ name item,
      convert_result f s e t (Api.Enum name item) = e name item)
    ∧ (∀ name item old_tyname analysis,
      convert_result f s e t (Api.Typedef name item old_tyname analysis) =
        t name item old_tyname analysis) :=
  ⟨fun _ _ _ _ => rfl, fun _ _ _ => rfl, fun _ _ => rfl, fun _ _ _ _ => rfl⟩

/-- C5 counterexample: `report_any_error` on a failure without context emits
the log line `Ignored item: boom`, which contains the error's message but no
attributed name — neither the supplied namespace (`outer`) nor any
identifier appears, since the call receives no qualified name and the error
carries no context. -/
theorem report_any_error_log_line_counterexample :
    report_any_error (P := phU) (T := Unit) nsOuter []
        (Except.error ⟨errBoom, none⟩) =
      (none, [], ["Ignored item: boom"])
    ∧ strIncludes "Ignored item: boom" "outer" = false
    ∧ strIncludes "Ignored item: boom" "boom" = true := by
  refine ⟨rfl, ?_, ?_⟩ <;> rfl

/-- C5 (amended): every failure log line carries the error's rendered
message; the lines emitted through `api_or_error` (the only logging done by
`convert_apis` and `convert_item_apis`) also carry the record's qualified
name, and `report_any_error` with a context also carries the context's
rendering — but `report_any_error` without a context logs only
`Ignored item: <message>`, with no attributed name. -/
theorem log_line_contents {B P : AnalysisPhase} {τ : Type}
    (name : QualifiedName) (ns : Namespace) (apis : List (Api P))
    (err : ConvertError) :
    (∀ octx : Option ErrorContext,
      (api_or_error (T := B) name (Except.error ⟨err, octx⟩)).snd =
        ["Ignored " ++ name.to_string ++ ": " ++ err.to_string])
    ∧ (∀ ctx : ErrorContext,
      (report_any_error (T := τ) ns apis
          (Except.error ⟨err, some ctx⟩)).snd.snd =
        ["Ignored item " ++ ctx.to_string ++ ": " ++ err.to_string])
    ∧ (report_any_error (T := τ) ns apis
          (Except.error ⟨err, none⟩)).snd.snd =
        ["Ignored item: " ++ err.to_string] := by
  refine ⟨?_, fun ctx => rfl, rfl⟩
  intro octx
  cases octx <;> rfl

/-- C6 counterexample: `convert_item_apis` does not copy a placeholder record
through unchanged — it hands it to the uniform rule like any other record;
with a rule returning an empty success sequence the placeholder vanishes from
the output. -/
theorem convert_item_apis_placeholder_counterexample :
    (convert_item_apis (A := phU) (B := phU) [pIgn] []
        (fun _ => Except.ok [])).fst = []
    ∧ ([] : List (Api phU)) ≠ [pIgn] :=
  ⟨rfl, fun h => List.noConfusion h⟩

/-- C6 (amended): `convert_apis` treats a placeholder as a pass-through kind —
it is copied unchanged and no conversion rule is invoked for it — whereas
`convert_item_apis` hands every record, placeholders included, to its uniform
rule, whose outcome determines the output for that position. -/
theorem placeholder_terminality {A B : AnalysisPhase}
    (f : FuncRule A B) (s : StructRule A B) (e : EnumRule B)
    (t : TypedefRule A B) :
    (∀ name err ctx,
      convert_one f s e t (Api.IgnoredItem name err ctx) =
        ([Api.IgnoredItem name err ctx], []))
    ∧ (∀ (g : Api A → Except ConvertError (List (Api B)))
        name err ctx (l : List (Api B)),
        g (Api.IgnoredItem name err ctx) = Except.ok l →
        (convert_item_apis [Api.IgnoredItem name err ctx] [] g).fst = l) := by
  constructor
  · intros; rfl
  · intro g name err ctx l hg
    rw [convert_item_apis, extendFlatten_eq]
    simp [convert_item_step, hg, api_or_error]

/-- A uniform rule that succeeds on every record with no output records. -/
def gEmpty : Api phU → Except ConvertError (List (Api phU)) :=
  fun _ => Except.ok []

/-- C6 witness: with a uniform rule sending every record to an empty success
sequence, a placeholder input yields an empty output, while `convert_apis`
(first conjunct, applied inside the theorem) copies it unchanged. -/
theorem placeholder_terminality_witness :
    gEmpty pIgn = Except.ok []
    ∧ (convert_item_apis [Api.IgnoredItem anBar errBoom (ErrorContext.Item "Bar")]
        [] gEmpty).fst = [] :=
  ⟨rfl,
   (placeholder_terminality fOk sFail eOk tOk).2
     gEmpty anBar errBoom (ErrorContext.Item "Bar") [] rfl⟩

/-- C8: when the uniform rule of `convert_item_apis` fails on a record with a
plain error, the error is wrapped with context `Item(final identifier)` and
routed through the same Materializer: the batch output holds, at that
record's position, exactly one placeholder named by the item's final
identifier under the item's namespace, plus one log line — never a silent
drop. -/
theorem convert_item_apis_context_wrapping {A B : AnalysisPhase}
    (fun_ : Api A → Except ConvertError (List (Api B)))
    (xs ys : List (Api A)) (a : Api A) (out : List (Api B))
    (e : ConvertError) (h : fun_ a = Except.error e) :
    convert_item_apis (xs ++ a :: ys) out fun_ =
      (out ++ (xs.map fun x => (convert_item_step fun_ x).fst).flatten
           ++ [Api.IgnoredItem
                 (ApiName.new a.name.get_namespace a.name.get_final_ident) e
                 (ErrorContext.Item a.name.get_final_ident)]
           ++ (ys.map fun x => (convert_item_step fun_ x).fst).flatten,
       (xs.map fun x => (convert_item_step fun_ x).snd).flatten
         ++ ["Ignored " ++ a.name.to_string ++ ": " ++ e.to_string]
         ++ (ys.map fun x => (convert_item_step fun_ x).snd).flatten) := by
  rw [convert_item_apis, extendFlatten_eq]
  simp [convert_item_step, h, api_or_error, ignored_item, ErrorContext.get_id,
    List.append_assoc]

/-- C8 witness: a uniform rule failing with `boom` on the record `Bar` yields
exactly one placeholder named `Bar` in `Bar`'s namespace and one log line. -/
theorem convert_item_apis_context_wrapping_witness :
    gFail (Api.ForwardDeclaration anBar) = Except.error errBoom
    ∧ convert_item_apis [Api.ForwardDeclaration anBar] [] gFail =
        ([Api.IgnoredItem (ApiName.new nsOuter "Bar") errBoom
            (ErrorContext.Item "Bar")],
         ["Ignored outer::Bar: boom"]) :=
  ⟨rfl,
   convert_item_apis_context_wrapping gFail [] []
     (Api.ForwardDeclaration anBar) [] errBoom rfl⟩

/-- C9: `report_any_error` returns the value on success; on failure it
returns no value in both cases (the failure is handled internally — the
function is total and has no error channel); with a context it appends
exactly one placeholder to the caller-supplied collection, and without a
context it appends nothing. -/
theorem report_any_error_contract {P : AnalysisPhase} {T : Type}
    (ns : Namespace) (apis : List (Api P)) (err : ConvertError) :
    (∀ t : T, report_any_error ns apis (Except.ok t) = (some t, apis, []))
    ∧ report_any_error (T := T) ns apis (Except.error ⟨err, none⟩) =
        (none, apis, ["Ignored item: " ++ err.to_string])
    ∧ (∀ ctx : ErrorContext,
      report_any_error (T := T) ns apis (Except.error ⟨err, some ctx⟩) =
        (none, apis ++ [ignored_item ns ctx err],
         ["Ignored item " ++ ctx.to_string ++ ": " ++ err.to_string])) :=
  ⟨fun _ => rfl, rfl, fun _ => rfl⟩

/-- C10: when the operation passed to `report_any_error` succeeds, the
caller-supplied collection is returned unchanged and no log line is emitted;
the only effect is the returned value. -/
theorem report_any_error_success_frame {P : AnalysisPhase} {T : Type}
    (ns : Namespace) (apis : List (Api P)) (t : T) :
    report_any_error ns apis (Except.ok t) = (some t, apis, []) := rfl

end ErrorReporter
